import Mathlib

/-!
Verification of the categorization-and-aggregation core of the
telecom-complaints dashboard (BridgeLens / HackathonApp).

The repository ships the backend as four Python modules
(`data_loader.py`, `categorizer.py`, `data_processor.py`, `backend.py`)
documented in the backend README and the spec; the module sources
themselves are not part of the checked-in tree, so the Loader,
Categorizer, Aggregator and Facade are modelled here from the spec's
contracts (each such definition carries a `Modelled from the spec:` doc
comment).  The frontend `Analytics` component is present in the tree and
is embedded from its source.

Strings are handled as lists of characters so that every operation
(lower-casing, substring search) reduces in the kernel.
-/

/-- ASCII lower-casing of a single character, as Python `str.lower` acts on
the ASCII range used by the keyword rules. -/
def lowChar (c : Char) : Char :=
  if 65 ≤ c.toNat ∧ c.toNat ≤ 90 then Char.ofNat (c.toNat + 32) else c

/-- Lower-case a string into its character list. -/
def lowerData (s : String) : List Char :=
  s.data.map lowChar

/-- Boolean prefix test on character lists. -/
def isPrefixB : List Char → List Char → Bool
  | [], _ => true
  | _ :: _, [] => false
  | a :: as, b :: bs => a == b && isPrefixB as bs

/-- Boolean substring test: does `needle` occur contiguously in the second
list?  This is Python's `in` on strings. -/
def containsB (needle : List Char) : List Char → Bool
  | [] => isPrefixB needle []
  | c :: cs => isPrefixB needle (c :: cs) || containsB needle cs

/-- Modelled from the spec: a raw complaint record produced by the missing
`data_loader.py` — the detected text field (`none` models malformed,
non-string text) plus its row index within its source. -/
structure ComplaintRecord where
  raw_text : Option String
  source_row_index : Nat
deriving Repr, DecidableEq

/-- Modelled from the spec: one static keyword rule of the missing
`categorizer.py` — category name, ordered keyword list, business goal. -/
structure CategoryRule where
  category_name : String
  keywords : List String
  business_goal : String
deriving Repr, DecidableEq

/-- Modelled from the spec: a complaint record together with its assigned
category and business goal (`categorizer.py` output columns). -/
structure CategorizedRecord where
  raw_text : Option String
  source_row_index : Nat
  category : String
  business_goal : String
deriving Repr, DecidableEq

/-- Malformed (non-string) text is treated as empty text (spec §4.2). -/
def textOrEmpty : Option String → String
  | none => ""
  | some s => s

/-- A rule matches iff any of its keywords occurs as a substring of the
(lower-cased) text; the keyword itself is lower-cased the way the static
rule table stores lower-case keywords. -/
def ruleMatches (low : List Char) (r : CategoryRule) : Bool :=
  r.keywords.any (fun k => containsB (lowerData k) low)

/-- First-match scan over the ordered rule list. -/
def firstMatch (low : List Char) : List CategoryRule → String × String
  | [] => ("Uncategorized", "")
  | r :: rs => if ruleMatches low r then (r.category_name, r.business_goal)
               else firstMatch low rs

/-- Modelled from the spec: the missing `categorizer.py` classification of a
single record's text — lower-case the text, scan the ordered rules, first
match wins, `("Uncategorized", "")` when nothing matches. -/
def categorize (rules : List CategoryRule) (t : Option String) : String × String :=
  firstMatch (lowerData (textOrEmpty t)) rules

/-- Modelled from the spec: categorize a whole loaded dataset, preserving
record order. -/
def categorizeAll (rules : List CategoryRule) (recs : List ComplaintRecord) :
    List CategorizedRecord :=
  recs.map (fun r =>
    let cg := categorize rules r.raw_text
    ⟨r.raw_text, r.source_row_index, cg.1, cg.2⟩)

/-- Number of records of a dataset carrying the given category. -/
def countCat (ds : List CategorizedRecord) (c : String) : Nat :=
  (ds.filter (fun r => r.category == c)).length

/-- The candidate categories in configured order: the rule names followed by
the sentinel. -/
def candidateCats (rules : List CategoryRule) : List String :=
  rules.map (fun r => r.category_name) ++ ["Uncategorized"]

/-- Scanning an ordered rule list whose prefix has no matching rule skips the
prefix. -/
theorem firstMatch_append_of_none (low : List Char) (pre rest : List CategoryRule)
    (hpre : ∀ r ∈ pre, ruleMatches low r = false) :
    firstMatch low (pre ++ rest) = firstMatch low rest := by
  induction pre with
  | nil => rfl
  | cons p ps ih =>
    have hp : ruleMatches low p = false := hpre p (List.mem_cons_self p ps)
    simp only [List.cons_append, firstMatch, hp, Bool.false_eq_true, if_false]
    exact ih (fun r hr => hpre r (List.mem_cons_of_mem p hr))

/-- C1: the Categorizer lower-cases the text and assigns the category (and
business goal) of the first rule, in configured order, any of whose keywords
occurs as a substring of the lower-cased text: with no rule of the prefix
`pre` matching and `R1` matching, the earlier rule `R1` wins over the later
matching rule `R2`, however `R2`'s keywords overlap the text. -/
theorem categorizer_first_rule_wins (pre mid post : List CategoryRule)
    (R1 R2 : CategoryRule) (t : Option String)
    (hpre : ∀ r ∈ pre, ruleMatches (lowerData (textOrEmpty t)) r = false)
    (h1 : ruleMatches (lowerData (textOrEmpty t)) R1 = true)
    (h2 : ruleMatches (lowerData (textOrEmpty t)) R2 = true) :
    categorize (pre ++ R1 :: (mid ++ R2 :: post)) t =
      (R1.category_name, R1.business_goal) := by
  unfold categorize
  rw [firstMatch_append_of_none _ _ _ hpre]
  simp [firstMatch, h1]

/-- C1 witness: a text matching both the later "Support" rule (twice over)
and the earlier "Billing" rule classifies as "Billing". -/
theorem categorizer_first_rule_wins_witness :
    (∀ r ∈ [CategoryRule.mk "Network" ["signal"] "Improve Network"],
        ruleMatches (lowerData (textOrEmpty (some "My BILL was wrong"))) r = false) ∧
    ruleMatches (lowerData (textOrEmpty (some "My BILL was wrong")))
      (CategoryRule.mk "Billing" ["bill"] "Improve Billing") = true ∧
    ruleMatches (lowerData (textOrEmpty (some "My BILL was wrong")))
      (CategoryRule.mk "Support" ["bill", "wrong"] "Improve Support") = true ∧
    categorize
      ([CategoryRule.mk "Network" ["signal"] "Improve Network"] ++
        CategoryRule.mk "Billing" ["bill"] "Improve Billing" ::
          ([] ++ CategoryRule.mk "Support" ["bill", "wrong"] "Improve Support" :: []))
      (some "My BILL was wrong") = ("Billing", "Improve Billing") :=
  ⟨by decide, by decide, by decide,
    categorizer_first_rule_wins [CategoryRule.mk "Network" ["signal"] "Improve Network"]
      [] [] (CategoryRule.mk "Billing" ["bill"] "Improve Billing")
      (CategoryRule.mk "Support" ["bill", "wrong"] "Improve Support")
      (some "My BILL was wrong") (by decide) (by decide) (by decide)⟩

/-- C3: a record whose text matches no rule gets category "Uncategorized"
with an empty business goal, and malformed (non-string) text is treated
exactly as empty text for every rule list; `categorize` is a total function
over all inputs by construction. -/
theorem categorize_uncategorized_fallback (rules : List CategoryRule)
    (t : Option String)
    (hnone : ∀ r ∈ rules, ruleMatches (lowerData (textOrEmpty t)) r = false) :
    categorize rules t = ("Uncategorized", "") ∧
    ∀ rs : List CategoryRule, categorize rs none = categorize rs (some "") := by
  refine ⟨?_, fun rs => rfl⟩
  unfold categorize
  rw [show rules = rules ++ [] by simp, firstMatch_append_of_none _ _ _ hnone]
  rfl

/-- C3 witness: an unmatched text and a malformed text both fall back to
"Uncategorized". -/
theorem categorize_uncategorized_fallback_witness :
    (∀ r ∈ [CategoryRule.mk "Billing" ["bill"] "Improve Billing"],
        ruleMatches (lowerData (textOrEmpty (some "unrelated text"))) r = false) ∧
    categorize [CategoryRule.mk "Billing" ["bill"] "Improve Billing"]
        (some "unrelated text") = ("Uncategorized", "") ∧
    ∀ rs : List CategoryRule, categorize rs none = categorize rs (some "") :=
  ⟨by decide,
    (categorize_uncategorized_fallback
      [CategoryRule.mk "Billing" ["bill"] "Improve Billing"]
      (some "unrelated text") (by decide)).1,
    (categorize_uncategorized_fallback
      [CategoryRule.mk "Billing" ["bill"] "Improve Billing"]
      (some "unrelated text") (by decide)).2⟩

/-- The category assigned by the rule scan is one of the rule names or the
sentinel. -/
theorem firstMatch_fst_mem (low : List Char) (rules : List CategoryRule) :
    (firstMatch low rules).1 ∈ candidateCats rules := by
  induction rules with
  | nil => simp [firstMatch, candidateCats]
  | cons r rs ih =>
    by_cases h : ruleMatches low r = true
    · simp [firstMatch, h, candidateCats]
    · simp only [firstMatch, h, if_false, candidateCats, List.map_cons, List.cons_append,
        List.mem_cons]
      exact Or.inr (by simpa [candidateCats] using ih)

/-- Counting a category in a dataset extended by one record. -/
theorem countCat_cons (r : CategorizedRecord) (ds : List CategorizedRecord)
    (c : String) :
    countCat (r :: ds) c = (if r.category = c then 1 else 0) + countCat ds c := by
  by_cases h : r.category = c
  · simp [countCat, List.filter_cons, h, Nat.add_comm]
  · simp [countCat, List.filter_cons, h]

/-- Summing indicator functions over a duplicate-free name list counts
membership. -/
theorem sum_indicator_nodup (c0 : String) (names : List String)
    (hnd : names.Nodup) :
    (names.map (fun c => if c0 = c then 1 else 0)).sum
      = if c0 ∈ names then 1 else 0 := by
  induction names with
  | nil => simp
  | cons n ns ih =>
    rcases List.nodup_cons.mp hnd with ⟨hn, hns⟩
    by_cases h : c0 = n
    · subst h
      simp [List.mem_cons, ih hns, if_neg hn]
    · simp [List.mem_cons, h, ih hns]

/-- C2: after categorization every record's category is a configured name
or "Uncategorized", and the Uncategorized count plus the counts over the
configured categories add up to the number of loaded records. -/
theorem categorization_partition (rules : List CategoryRule)
    (recs : List ComplaintRecord)
    (hnd : (rules.map (fun r => r.category_name)).Nodup)
    (hu : "Uncategorized" ∉ rules.map (fun r => r.category_name)) :
    (∀ cr ∈ categorizeAll rules recs, cr.category ∈ candidateCats rules) ∧
    countCat (categorizeAll rules recs) "Uncategorized" +
      ((rules.map (fun r => r.category_name)).map
        (countCat (categorizeAll rules recs))).sum = recs.length := by
  constructor
  · intro cr hcr
    rcases List.mem_map.mp hcr with ⟨r, _, rfl⟩
    exact firstMatch_fst_mem _ rules
  · induction recs with
    | nil =>
      show countCat [] "Uncategorized"
          + ((rules.map (fun q => q.category_name)).map (countCat [])).sum = 0
      have hz : ((rules.map (fun q => q.category_name)).map (countCat [])).sum = 0 :=
        List.sum_eq_zero (fun x hx => by
          rcases List.mem_map.mp hx with ⟨c, _, rfl⟩; rfl)
      rw [hz]
      rfl
    | cons r rs ih =>
      have hall : categorizeAll rules (r :: rs)
          = ⟨r.raw_text, r.source_row_index, (categorize rules r.raw_text).1,
             (categorize rules r.raw_text).2⟩ :: categorizeAll rules rs := rfl
      rw [hall, countCat_cons]
      have hmapeq : (rules.map (fun q => q.category_name)).map
          (countCat (⟨r.raw_text, r.source_row_index, (categorize rules r.raw_text).1,
              (categorize rules r.raw_text).2⟩ :: categorizeAll rules rs))
          = (rules.map (fun q => q.category_name)).map
            (fun c => (if (categorize rules r.raw_text).1 = c then 1 else 0)
              + countCat (categorizeAll rules rs) c) :=
        List.map_congr_left (fun c _ => countCat_cons _ _ c)
      rw [hmapeq, List.sum_map_add, sum_indicator_nodup _ _ hnd]
      have hmem : (categorize rules r.raw_text).1 ∈ candidateCats rules :=
        firstMatch_fst_mem _ rules
      rcases List.mem_append.mp hmem with hin | hsent
      · have hne : ¬ (categorize rules r.raw_text).1 = "Uncategorized" := by
          intro h; rw [h] at hin; exact hu hin
        rw [if_neg hne, if_pos hin]
        simp only [List.length_cons]
        omega
      · have hsent' : (categorize rules r.raw_text).1 = "Uncategorized" := by
          simpa using hsent
        rw [if_pos hsent', if_neg (by rw [hsent']; exact hu)]
        simp only [List.length_cons]
        omega

/-- C2 witness: Scenario A of the spec — one Billing rule, three records, two
Billing and one Uncategorized, 2 + 1 = 3 records in all. -/
theorem categorization_partition_witness :
    ([CategoryRule.mk "Billing" ["bill", "charge"] "Improve Billing"].map
        (fun r => r.category_name)).Nodup ∧
    "Uncategorized" ∉ ([CategoryRule.mk "Billing" ["bill", "charge"] "Improve Billing"].map
        (fun r => r.category_name)) ∧
    ((∀ cr ∈ categorizeAll [CategoryRule.mk "Billing" ["bill", "charge"] "Improve Billing"]
        [⟨some "My bill was wrong", 0⟩, ⟨some "unrelated text", 1⟩,
         ⟨some "double charge applied", 2⟩],
        cr.category ∈ candidateCats
          [CategoryRule.mk "Billing" ["bill", "charge"] "Improve Billing"]) ∧
      countCat (categorizeAll [CategoryRule.mk "Billing" ["bill", "charge"] "Improve Billing"]
        [⟨some "My bill was wrong", 0⟩, ⟨some "unrelated text", 1⟩,
         ⟨some "double charge applied", 2⟩]) "Uncategorized" +
        (([CategoryRule.mk "Billing" ["bill", "charge"] "Improve Billing"].map
          (fun r => r.category_name)).map
          (countCat (categorizeAll
            [CategoryRule.mk "Billing" ["bill", "charge"] "Improve Billing"]
            [⟨some "My bill was wrong", 0⟩, ⟨some "unrelated text", 1⟩,
             ⟨some "double charge applied", 2⟩]))).sum = 3) :=
  ⟨by decide, by decide,
    categorization_partition [CategoryRule.mk "Billing" ["bill", "charge"] "Improve Billing"]
      [⟨some "My bill was wrong", 0⟩, ⟨some "unrelated text", 1⟩,
       ⟨some "double charge applied", 2⟩] (by decide) (by decide)⟩

/-- A represented category before ranking: its index in the configured
candidate order, its name, and its record count. -/
structure CatEntry where
  pos : Nat
  category : String
  count : Nat
deriving Repr, DecidableEq

/-- One row of the priority ranking: 1-based rank, configured-order index,
category name and record count. -/
structure RankEntry where
  priority_rank : Nat
  pos : Nat
  category : String
  count : Nat
deriving Repr, DecidableEq

/-- Modelled from the spec: the categories of the missing
`data_processor.py` ranking input — every candidate category holding at
least one record, tagged with its index in the configured order. -/
def repEntries (rules : List CategoryRule) (ds : List CategorizedRecord) :
    List CatEntry :=
  (candidateCats rules).enum.filterMap (fun pc =>
    if 0 < countCat ds pc.2 then some ⟨pc.1, pc.2, countCat ds pc.2⟩ else none)

/-- The ranking order: higher count first, ties resolved by the configured
rule-table index. -/
def rankLE (x y : CatEntry) : Prop :=
  y.count < x.count ∨ (x.count = y.count ∧ x.pos ≤ y.pos)

instance : DecidableRel rankLE := fun x y =>
  inferInstanceAs (Decidable (y.count < x.count ∨ (x.count = y.count ∧ x.pos ≤ y.pos)))

instance : IsTotal CatEntry rankLE :=
  ⟨fun a b => by unfold rankLE; omega⟩

instance : IsTrans CatEntry rankLE :=
  ⟨fun a b c hab hbc => by unfold rankLE at *; omega⟩

/-- Modelled from the spec: the missing `data_processor.py`
`get_priority_ranking` — represented categories sorted by descending count
with rule-order tie-break, then numbered 1, 2, 3, …. -/
def priority_ranking (rules : List CategoryRule) (ds : List CategorizedRecord) :
    List RankEntry :=
  (List.insertionSort rankLE (repEntries rules ds)).enum.map
    (fun ie => ⟨ie.1 + 1, ie.2.pos, ie.2.category, ie.2.count⟩)

/-- Mapping a projection over a `filterMap` that preserves a key gives a
sublist of the key column. -/
theorem filterMap_map_sublist {α β γ : Type} (f : α → Option β) (p : β → γ)
    (q : α → γ) (hf : ∀ a b, f a = some b → p b = q a) :
    ∀ l : List α, ((l.filterMap f).map p).Sublist (l.map q)
  | [] => List.Sublist.refl _
  | a :: l => by
    rw [List.filterMap_cons, List.map_cons]
    cases h : f a with
    | none =>
      exact List.Sublist.cons (q a) (filterMap_map_sublist f p q hf l)
    | some b =>
      rw [List.map_cons, hf a b h]
      exact List.Sublist.cons₂ (q a) (filterMap_map_sublist f p q hf l)

/-- The configured-order indices of the represented categories are pairwise
distinct. -/
theorem repEntries_pos_nodup (rules : List CategoryRule)
    (ds : List CategorizedRecord) :
    ((repEntries rules ds).map CatEntry.pos).Nodup := by
  have hsub : ((repEntries rules ds).map CatEntry.pos).Sublist
      ((candidateCats rules).enum.map Prod.fst) := by
    apply filterMap_map_sublist
    intro a b hab
    by_cases h : 0 < countCat ds a.2
    · simp only [repEntries, h, if_pos] at hab
      cases hab.symm
      rfl
    · simp [h] at hab
  rw [List.enum_map_fst] at hsub
  exact hsub.nodup (List.nodup_range _)

/-- The sorted entry list keeps the distinct configured-order indices. -/
theorem sorted_pos_nodup (rules : List CategoryRule)
    (ds : List CategorizedRecord) :
    ((List.insertionSort rankLE (repEntries rules ds)).map CatEntry.pos).Nodup := by
  have hperm := (List.perm_insertionSort rankLE (repEntries rules ds)).map CatEntry.pos
  exact hperm.nodup_iff.mpr (repEntries_pos_nodup rules ds)

/-- The ranking has one row per sorted represented category. -/
theorem priority_ranking_length (rules : List CategoryRule)
    (ds : List CategorizedRecord) :
    (priority_ranking rules ds).length
      = (List.insertionSort rankLE (repEntries rules ds)).length := by
  simp [priority_ranking, List.enum_length]

/-- Row `k` of the ranking is the `k`-th sorted entry numbered `k + 1`. -/
theorem priority_ranking_get (rules : List CategoryRule)
    (ds : List CategorizedRecord) (k : Nat)
    (hk : k < (priority_ranking rules ds).length)
    (hk2 : k < (List.insertionSort rankLE (repEntries rules ds)).length) :
    (priority_ranking rules ds).get ⟨k, hk⟩
      = ⟨k + 1,
          ((List.insertionSort rankLE (repEntries rules ds)).get ⟨k, hk2⟩).pos,
          ((List.insertionSort rankLE (repEntries rules ds)).get ⟨k, hk2⟩).category,
          ((List.insertionSort rankLE (repEntries rules ds)).get ⟨k, hk2⟩).count⟩ := by
  simp [priority_ranking, List.get_eq_getElem, List.getElem_map, List.getElem_enum]

/-- C4: the priority ranking carries 1-based contiguous ranks, counts are
non-increasing as rank grows, a count tie is resolved in favour of the
category earlier in the configured order, and the rows are exactly the
represented categories with their true counts. -/
theorem priority_ranking_contract (rules : List CategoryRule)
    (ds : List CategorizedRecord) :
    ((priority_ranking rules ds).map (fun e => e.priority_rank)
        = List.range' 1 (priority_ranking rules ds).length) ∧
    (∀ i j : Nat, ∀ hij : i < j, ∀ hj : j < (priority_ranking rules ds).length,
      ((priority_ranking rules ds).get ⟨j, hj⟩).count
          ≤ ((priority_ranking rules ds).get ⟨i, Nat.lt_trans hij hj⟩).count ∧
      (((priority_ranking rules ds).get ⟨i, Nat.lt_trans hij hj⟩).count
          = ((priority_ranking rules ds).get ⟨j, hj⟩).count →
        ((priority_ranking rules ds).get ⟨i, Nat.lt_trans hij hj⟩).pos
          < ((priority_ranking rules ds).get ⟨j, hj⟩).pos)) ∧
    (∀ c ∈ candidateCats rules, 0 < countCat ds c →
      ∃ e ∈ priority_ranking rules ds, e.category = c) ∧
    (∀ e ∈ priority_ranking rules ds,
      (candidateCats rules).get? e.pos = some e.category ∧
      e.count = countCat ds e.category ∧ 0 < e.count) := by
  have hsorted : List.Sorted rankLE (List.insertionSort rankLE (repEntries rules ds)) :=
    List.sorted_insertionSort rankLE (repEntries rules ds)
  have hpair := List.pairwise_iff_get.mp hsorted
  have hperm := List.perm_insertionSort rankLE (repEntries rules ds)
  refine ⟨?_, ?_, ?_, ?_⟩
  · unfold priority_ranking
    rw [List.map_map]
    have h1 : ((fun e : RankEntry => e.priority_rank) ∘
        (fun ie : Nat × CatEntry => RankEntry.mk (ie.1 + 1) ie.2.pos ie.2.category ie.2.count))
        = (fun x => x + 1) ∘ Prod.fst := rfl
    rw [h1, ← List.map_map, List.enum_map_fst, List.range'_eq_map_range]
    simp only [List.length_map, List.enum_length]
    exact List.map_congr_left (fun x _ => Nat.add_comm x 1)
  · intro i j hij hj
    have hj2 : j < (List.insertionSort rankLE (repEntries rules ds)).length := by
      rwa [priority_ranking_length] at hj
    have hi2 : i < (List.insertionSort rankLE (repEntries rules ds)).length :=
      Nat.lt_trans hij hj2
    have hle : rankLE
        ((List.insertionSort rankLE (repEntries rules ds)).get ⟨i, hi2⟩)
        ((List.insertionSort rankLE (repEntries rules ds)).get ⟨j, hj2⟩) :=
      hpair ⟨i, hi2⟩ ⟨j, hj2⟩ hij
    have hle' :
        ((List.insertionSort rankLE (repEntries rules ds)).get ⟨j, hj2⟩).count
            < ((List.insertionSort rankLE (repEntries rules ds)).get ⟨i, hi2⟩).count ∨
          (((List.insertionSort rankLE (repEntries rules ds)).get ⟨i, hi2⟩).count
              = ((List.insertionSort rankLE (repEntries rules ds)).get ⟨j, hj2⟩).count ∧
            ((List.insertionSort rankLE (repEntries rules ds)).get ⟨i, hi2⟩).pos
              ≤ ((List.insertionSort rankLE (repEntries rules ds)).get ⟨j, hj2⟩).pos) :=
      hle
    rw [priority_ranking_get rules ds j hj hj2,
      priority_ranking_get rules ds i (Nat.lt_trans hij hj) hi2]
    dsimp only
    have hne : ((List.insertionSort rankLE (repEntries rules ds)).get ⟨i, hi2⟩).pos
        ≠ ((List.insertionSort rankLE (repEntries rules ds)).get ⟨j, hj2⟩).pos := by
      intro heq
      have hnd := sorted_pos_nodup rules ds
      have hgi : ((List.insertionSort rankLE (repEntries rules ds)).map CatEntry.pos).get
          ⟨i, by simpa [List.length_map] using hi2⟩
          = ((List.insertionSort rankLE (repEntries rules ds)).map CatEntry.pos).get
            ⟨j, by simpa [List.length_map] using hj2⟩ := by
        rw [List.get_map, List.get_map]
        exact heq
      have hfin := (List.nodup_iff_injective_get.mp hnd) hgi
      have : i = j := congrArg Fin.val hfin
      omega
    constructor
    · omega
    · intro hcnt
      omega
  · intro c hc hcount
    rcases List.mem_iff_get.mp hc with ⟨⟨n, hn⟩, hget⟩
    have hq : (candidateCats rules).get? n = some c := by
      rw [List.get?_eq_get hn, hget]
    have henum : (n, c) ∈ (candidateCats rules).enum :=
      List.mk_mem_enum_iff_get?.mpr hq
    have hE : (CatEntry.mk n c (countCat ds c)) ∈ repEntries rules ds := by
      apply List.mem_filterMap.mpr
      exact ⟨(n, c), henum, by simp [hcount]⟩
    have hS : (CatEntry.mk n c (countCat ds c))
        ∈ List.insertionSort rankLE (repEntries rules ds) :=
      hperm.mem_iff.mpr hE
    rcases List.mem_iff_get.mp hS with ⟨⟨k, hk2⟩, hkget⟩
    have hk : k < (priority_ranking rules ds).length := by
      rwa [priority_ranking_length]
    refine ⟨(priority_ranking rules ds).get ⟨k, hk⟩, List.get_mem _ _ _, ?_⟩
    rw [priority_ranking_get rules ds k hk hk2, hkget]
  · intro e he
    rcases List.mem_iff_get.mp he with ⟨⟨k, hk⟩, hek⟩
    have hk2 : k < (List.insertionSort rankLE (repEntries rules ds)).length := by
      rwa [priority_ranking_length] at hk
    rw [priority_ranking_get rules ds k hk hk2] at hek
    have hSk : (List.insertionSort rankLE (repEntries rules ds)).get ⟨k, hk2⟩
        ∈ List.insertionSort rankLE (repEntries rules ds) := List.get_mem _ _ _
    have hE : (List.insertionSort rankLE (repEntries rules ds)).get ⟨k, hk2⟩
        ∈ repEntries rules ds := hperm.mem_iff.mp hSk
    rcases List.mem_filterMap.mp hE with ⟨pc, hpc, hfpc⟩
    by_cases hpos : 0 < countCat ds pc.2
    · simp only [if_pos hpos] at hfpc
      have hq : (candidateCats rules).get? pc.1 = some pc.2 := by
        have hmk : (pc.1, pc.2) ∈ (candidateCats rules).enum := by
          simpa using hpc
        exact List.mk_mem_enum_iff_get?.mp hmk
      have hentry := Option.some.inj hfpc
      rw [← hek, ← hentry]
      exact ⟨hq, rfl, hpos⟩
    · simp [if_neg hpos] at hfpc

/-- A small concrete rule table used to exercise the theorems. -/
def demoRules : List CategoryRule :=
  [CategoryRule.mk "Billing" ["bill", "charge"] "Improve Billing",
   CategoryRule.mk "Network" ["signal"] "Improve Network"]

/-- A small concrete loaded dataset used to exercise the theorems. -/
def demoRecs : List ComplaintRecord :=
  [⟨some "my bill is wrong", 0⟩, ⟨some "no signal today", 1⟩,
   ⟨some "unrelated", 2⟩]

/-- The demo dataset after categorization. -/
def demoDs : List CategorizedRecord :=
  categorizeAll demoRules demoRecs

/-- C4 witness: on the demo data every category has count 1, so the ranking
is decided purely by the configured order; rank 1 goes to the earliest
configured category and counts never increase along the ranking. -/
theorem priority_ranking_contract_witness :
    ((0 : Nat) < 1 ∧ 1 < (priority_ranking demoRules demoDs).length) ∧
    ("Billing" ∈ candidateCats demoRules ∧ 0 < countCat demoDs "Billing") ∧
    (∃ e ∈ priority_ranking demoRules demoDs, e.category = "Billing") ∧
    ((priority_ranking demoRules demoDs).get ⟨1, by decide⟩).count
        ≤ ((priority_ranking demoRules demoDs).get ⟨0, by decide⟩).count ∧
    ((priority_ranking demoRules demoDs).get ⟨0, by decide⟩).pos
        < ((priority_ranking demoRules demoDs).get ⟨1, by decide⟩).pos :=
  ⟨⟨by decide, by decide⟩, ⟨by decide, by decide⟩,
    (priority_ranking_contract demoRules demoDs).2.2.1 "Billing" (by decide) (by decide),
    ((priority_ranking_contract demoRules demoDs).2.1 0 1 (by decide) (by decide)).1,
    ((priority_ranking_contract demoRules demoDs).2.1 0 1 (by decide) (by decide)).2
      (by decide)⟩

/-- Modelled from the spec: per-category percentage of the missing
`data_processor.py` — count / total × 100, with zero total giving zero
rather than a division by zero. -/
def pct (total count : Nat) : ℚ :=
  if total = 0 then 0 else (count : ℚ) / (total : ℚ) * 100

/-- Modelled from the spec: the summary statistics record of the missing
`data_processor.py` — total records, distinct represented categories and
per-category percentages. -/
structure SummaryStats where
  total : Nat
  distinct : Nat
  percentages : List (String × ℚ)
deriving DecidableEq

/-- Modelled from the spec: the missing `data_processor.py`
`get_summary_stats`. -/
def summary_stats (rules : List CategoryRule) (ds : List CategorizedRecord) :
    SummaryStats :=
  ⟨ds.length, (repEntries rules ds).length,
   (repEntries rules ds).map (fun e => (e.category, pct ds.length e.count))⟩

/-- Over duplicate-free category names covering the whole dataset, the
per-category counts add up to the dataset size. -/
theorem sum_countCat_eq_length (names : List String) (ds : List CategorizedRecord)
    (hnd : names.Nodup) (hmem : ∀ r ∈ ds, r.category ∈ names) :
    (names.map (countCat ds)).sum = ds.length := by
  induction ds with
  | nil =>
    have hz : (names.map (countCat [])).sum = 0 :=
      List.sum_eq_zero (fun x hx => by
        rcases List.mem_map.mp hx with ⟨c, _, rfl⟩; rfl)
    simpa using hz
  | cons r rs ih =>
    have hmapeq : names.map (countCat (r :: rs))
        = names.map (fun c => (if r.category = c then 1 else 0) + countCat rs c) :=
      List.map_congr_left (fun c _ => countCat_cons _ _ c)
    rw [hmapeq, List.sum_map_add, sum_indicator_nodup _ _ hnd,
      if_pos (hmem r (List.mem_cons_self r rs)),
      ih (fun q hq => hmem q (List.mem_cons_of_mem r hq))]
    simp [Nat.add_comm]

/-- Dropping the zero-count categories does not change the total count. -/
theorem repEntries_count_sum (rules : List CategoryRule)
    (ds : List CategorizedRecord) :
    ((repEntries rules ds).map (fun e => e.count)).sum
      = ((candidateCats rules).map (countCat ds)).sum := by
  unfold repEntries
  have hgen : ∀ l : List (Nat × String),
      ((l.filterMap (fun pc =>
          if 0 < countCat ds pc.2 then
            some (CatEntry.mk pc.1 pc.2 (countCat ds pc.2)) else none)).map
        (fun e => e.count)).sum
      = (l.map (fun pc => countCat ds pc.2)).sum := by
    intro l
    induction l with
    | nil => rfl
    | cons pc l ih =>
      rw [List.filterMap_cons]
      by_cases h : 0 < countCat ds pc.2
      · simp only [if_pos h, List.map_cons, List.sum_cons, ih]
      · simp only [if_neg h, List.map_cons, List.sum_cons, ih]
        omega
  rw [hgen]
  have : (candidateCats rules).enum.map (fun pc => countCat ds pc.2)
      = ((candidateCats rules).enum.map Prod.snd).map (countCat ds) := by
    rw [List.map_map]; rfl
  rw [this, List.enum_map_snd]

/-- C5: with a duplicate-free candidate list covering every record, the
summary percentages add up to exactly 100 when the dataset is non-empty,
and are all exactly zero when it is empty (no division by zero occurs). -/
theorem summary_stats_percentages (rules : List CategoryRule)
    (ds : List CategorizedRecord)
    (hnd : (candidateCats rules).Nodup)
    (hmem : ∀ r ∈ ds, r.category ∈ candidateCats rules) :
    (0 < ds.length →
      ((summary_stats rules ds).percentages.map (fun p => p.2)).sum = 100) ∧
    (ds.length = 0 →
      ∀ p ∈ (summary_stats rules ds).percentages, p.2 = 0) := by
  constructor
  · intro hpos
    have hT : (ds.length : ℚ) ≠ 0 := by
      exact_mod_cast Nat.pos_iff_ne_zero.mp hpos
    have h1 : (summary_stats rules ds).percentages.map (fun p => p.2)
        = (repEntries rules ds).map (fun e => pct ds.length e.count) := by
      simp [summary_stats, List.map_map]
    have h2 : (repEntries rules ds).map (fun e => pct ds.length e.count)
        = (repEntries rules ds).map
            (fun e => (e.count : ℚ) * (100 / (ds.length : ℚ))) := by
      apply List.map_congr_left
      intro e _
      rw [pct, if_neg (Nat.pos_iff_ne_zero.mp hpos)]
      field_simp
    rw [h1, h2, List.sum_map_mul_right]
    have hsum : ((repEntries rules ds).map (fun e => e.count)).sum = ds.length := by
      rw [repEntries_count_sum, sum_countCat_eq_length _ _ hnd hmem]
    have h3 : ((repEntries rules ds).map (fun e => (e.count : ℚ))).sum
        = (ds.length : ℚ) := by
      rw [show (repEntries rules ds).map (fun e => (e.count : ℚ))
            = ((repEntries rules ds).map (fun e => e.count)).map (Nat.cast : ℕ → ℚ) by
          rw [List.map_map]; rfl]
      rw [← Nat.cast_list_sum, hsum]
    rw [h3]
    field_simp
  · intro hzero p hp
    rcases List.mem_map.mp hp with ⟨e, _, rfl⟩
    simp [pct, hzero]

/-- C5 witness: the three-record demo dataset yields percentages summing to
exactly 100; the empty dataset yields all-zero percentages. -/
theorem summary_stats_percentages_witness :
    (candidateCats demoRules).Nodup ∧
    (∀ r ∈ demoDs, r.category ∈ candidateCats demoRules) ∧
    (0 : Nat) < demoDs.length ∧
    ((summary_stats demoRules demoDs).percentages.map (fun p => p.2)).sum = 100 ∧
    (∀ p ∈ (summary_stats demoRules ([] : List CategorizedRecord)).percentages,
      p.2 = 0) :=
  ⟨by decide, by decide, by decide,
    (summary_stats_percentages demoRules demoDs (by decide) (by decide)).1 (by decide),
    (summary_stats_percentages demoRules [] (by decide) (by decide)).2 rfl⟩

/-- Modelled from the spec: one tabular input of the missing
`data_loader.py` — named columns and data rows of cell strings. -/
structure Source where
  cols : List String
  rows : List (List String)
deriving Repr, DecidableEq

/-- Modelled from the spec: the prioritized complaint-column alias list of
the missing `data_loader.py`, as documented in the backend README, stored
lower-cased for the case-insensitive comparison. -/
def columnAliases : List (List Char) :=
  [lowerData "Customer Complaint", lowerData "Complaint Text",
   lowerData "Complaint", lowerData "Text", lowerData "Description",
   lowerData "Issue", lowerData "Message"]

/-- Modelled from the spec: detect the complaint-text column — the first
alias, in priority order, that matches some column name case-insensitively
selects the first such column; if no alias matches, fall back to the first
column (index 0). -/
def detectColumn (cols : List String) : Nat :=
  match columnAliases.findSome?
      (fun a => cols.findIdx? (fun c => lowerData c == a)) with
  | some i => i
  | none => 0

/-- Modelled from the spec: the records of one source — each row, in order,
yields one record whose text is the detected column's cell. -/
def extractRecords (s : Source) : List ComplaintRecord :=
  s.rows.enum.map (fun ir => ⟨ir.2.get? (detectColumn s.cols), ir.1⟩)

/-- Modelled from the spec: the missing `data_loader.py` `load_data` —
all sources in order, each source's rows in order. -/
def load_data : List Source → List ComplaintRecord
  | [] => []
  | s :: ss => extractRecords s ++ load_data ss

/-- C6: loading many sources concatenates the per-source record sequences
in source order; within each source every row yields one record and the
row order is preserved; in particular a 3-row and a 2-row source load to
5 records. -/
theorem loader_concatenation (sources : List Source) :
    load_data sources = (sources.map extractRecords).flatten ∧
    (∀ s : Source, (extractRecords s).length = s.rows.length ∧
      (extractRecords s).map (fun r => r.source_row_index)
        = List.range s.rows.length) ∧
    (∀ s1 s2 : Source, s1.rows.length = 3 → s2.rows.length = 2 →
      load_data [s1, s2] = extractRecords s1 ++ extractRecords s2 ∧
      (load_data [s1, s2]).length = 5) := by
  refine ⟨?_, ?_, ?_⟩
  · induction sources with
    | nil => rfl
    | cons s ss ih => simp [load_data, ih]
  · intro s
    constructor
    · simp [extractRecords, List.enum_length]
    · rw [extractRecords, List.map_map]
      have h1 : ((fun r : ComplaintRecord => r.source_row_index) ∘
          (fun ir : Nat × List String => ComplaintRecord.mk (ir.2.get? (detectColumn s.cols)) ir.1))
          = Prod.fst := rfl
      rw [h1, List.enum_map_fst]
  · intro s1 s2 h1 h2
    constructor
    · simp [load_data]
    · simp [load_data, extractRecords, List.enum_length, h1, h2]

/-- C6 witness: a three-row source and a two-row source load to the
five records of the two sources in source-then-row order. -/
theorem loader_concatenation_witness :
    (Source.mk ["Complaint Text"] [["a"], ["b"], ["c"]]).rows.length = 3 ∧
    (Source.mk ["Whatever"] [["d"], ["e"]]).rows.length = 2 ∧
    (load_data [Source.mk ["Complaint Text"] [["a"], ["b"], ["c"]],
        Source.mk ["Whatever"] [["d"], ["e"]]]
      = extractRecords (Source.mk ["Complaint Text"] [["a"], ["b"], ["c"]])
        ++ extractRecords (Source.mk ["Whatever"] [["d"], ["e"]]) ∧
     (load_data [Source.mk ["Complaint Text"] [["a"], ["b"], ["c"]],
        Source.mk ["Whatever"] [["d"], ["e"]]]).length = 5) :=
  ⟨by decide, by decide,
    (loader_concatenation [Source.mk ["Complaint Text"] [["a"], ["b"], ["c"]],
        Source.mk ["Whatever"] [["d"], ["e"]]]).2.2
      (Source.mk ["Complaint Text"] [["a"], ["b"], ["c"]])
      (Source.mk ["Whatever"] [["d"], ["e"]]) (by decide) (by decide)⟩

/-- A predicate false on every element gives no index. -/
theorem findIdx?_eq_none_of_all {α : Type} (p : α → Bool) (l : List α)
    (h : ∀ y ∈ l, p y = false) :
    ∀ i : Nat, List.findIdx? p l i = none := by
  induction l with
  | nil => intro i; rfl
  | cons x xs ih =>
    intro i
    rw [List.findIdx?_cons,
      if_neg (by simp [h x (List.mem_cons_self x xs)])]
    exact ih (fun y hy => h y (List.mem_cons_of_mem x hy)) (i + 1)

/-- The first satisfying element determines the found index. -/
theorem findIdx?_first {α : Type} (p : α → Bool) (pre : List α) (x : α)
    (post : List α) (hpre : ∀ y ∈ pre, p y = false) (hx : p x = true) :
    ∀ i : Nat, List.findIdx? p (pre ++ x :: post) i = some (i + pre.length) := by
  induction pre with
  | nil =>
    intro i
    rw [List.nil_append, List.findIdx?_cons, if_pos hx]
    rfl
  | cons a l ih =>
    intro i
    rw [List.cons_append, List.findIdx?_cons,
      if_neg (by simp [hpre a (List.mem_cons_self a l)]),
      ih (fun y hy => hpre y (List.mem_cons_of_mem a hy)) (i + 1)]
    congr 1
    simp [List.length_cons]
    omega

/-- A prefix on which the search function yields nothing is skipped. -/
theorem findSome?_append_of_none {α β : Type} (f : α → Option β)
    (pre rest : List α) (h : ∀ b ∈ pre, f b = none) :
    List.findSome? f (pre ++ rest) = List.findSome? f rest := by
  induction pre with
  | nil => rfl
  | cons a l ih =>
    rw [List.cons_append, List.findSome?_cons, h a (List.mem_cons_self a l)]
    exact ih (fun b hb => h b (List.mem_cons_of_mem a hb))

/-- A search function yielding nothing everywhere finds nothing. -/
theorem findSome?_eq_none_of_all {α β : Type} (f : α → Option β)
    (l : List α) (h : ∀ b ∈ l, f b = none) :
    List.findSome? f l = none := by
  induction l with
  | nil => rfl
  | cons a xs ih =>
    rw [List.findSome?_cons, h a (List.mem_cons_self a xs)]
    exact ih (fun b hb => h b (List.mem_cons_of_mem a hb))

/-- C7: the Loader tests column names case-insensitively against the
prioritized alias list — including the aliases the spec names — selecting,
for the highest-priority alias matching any column, the first column that
matches it; when no alias matches any column it falls back to the first
column (index 0). -/
theorem detect_column_contract :
    (∀ s ∈ ["Complaint Text", "Customer Complaint", "Description", "Issue",
        "Message", "Text"], lowerData s ∈ columnAliases) ∧
    (∀ (apre : List (List Char)) (a : List Char) (apost : List (List Char))
        (cpre : List String) (c : String) (cpost : List String),
      columnAliases = apre ++ a :: apost →
      (∀ b ∈ apre, ∀ col ∈ cpre ++ c :: cpost, (lowerData col == b) = false) →
      (∀ col ∈ cpre, (lowerData col == a) = false) →
      (lowerData c == a) = true →
      detectColumn (cpre ++ c :: cpost) = cpre.length) ∧
    (∀ cols : List String,
      (∀ b ∈ columnAliases, ∀ col ∈ cols, (lowerData col == b) = false) →
      detectColumn cols = 0) := by
  refine ⟨by decide, ?_, ?_⟩
  · intro apre a apost cpre c cpost hsplit hnoearlier hcpre hc
    unfold detectColumn
    rw [hsplit,
      findSome?_append_of_none _ apre _
        (fun b hb => findIdx?_eq_none_of_all _ _ (hnoearlier b hb) 0),
      List.findSome?_cons, findIdx?_first _ cpre c cpost hcpre hc 0]
    simp
  · intro cols hall
    unfold detectColumn
    rw [findSome?_eq_none_of_all _ _
      (fun b hb => findIdx?_eq_none_of_all _ _ (fun col hcol => hall b hb col hcol) 0)]

/-- C7 witness: "Complaint Text" is the second-priority alias; with columns
["ID", "Complaint Text", "Date"] the detected index is 1, and with columns
matching no alias the detected index falls back to 0. -/
theorem detect_column_contract_witness :
    (lowerData "Complaint Text" ∈ columnAliases ∧
      columnAliases = [lowerData "Customer Complaint"] ++ lowerData "Complaint Text"
        :: [lowerData "Complaint", lowerData "Text", lowerData "Description",
            lowerData "Issue", lowerData "Message"]) ∧
    detectColumn (["ID"] ++ "Complaint Text" :: ["Date"]) = ["ID"].length ∧
    detectColumn ["Foo", "Bar"] = 0 :=
  ⟨⟨by decide, by decide⟩,
    (detect_column_contract).2.1 [lowerData "Customer Complaint"]
      (lowerData "Complaint Text")
      [lowerData "Complaint", lowerData "Text", lowerData "Description",
        lowerData "Issue", lowerData "Message"]
      ["ID"] "Complaint Text" ["Date"] (by decide) (by decide) (by decide) (by decide),
    (detect_column_contract).2.2 ["Foo", "Bar"] (by decide)⟩

/-- Modelled from the spec: the missing backend `filter_by_category` — the
matching subsequence for a known name, `UnknownCategoryError` for a name
that is neither a configured category nor "Uncategorized"; the input
dataset itself is never mutated (the function is pure). -/
def filter_by_category (rules : List CategoryRule)
    (ds : List CategorizedRecord) (name : String) :
    Except String (List CategorizedRecord) :=
  if name ∈ candidateCats rules then
    Except.ok (ds.filter (fun r => r.category == name))
  else
    Except.error "UnknownCategoryError"

/-- Modelled from the spec: the configured business goals plus the neutral
goal of the sentinel category. -/
def candidateGoals (rules : List CategoryRule) : List String :=
  rules.map (fun r => r.business_goal) ++ [""]

/-- Modelled from the spec: the missing backend `filter_by_business_goal` —
the same contract as `filter_by_category`, keyed by the goal string. -/
def filter_by_business_goal (rules : List CategoryRule)
    (ds : List CategorizedRecord) (goal : String) :
    Except String (List CategorizedRecord) :=
  if goal ∈ candidateGoals rules then
    Except.ok (ds.filter (fun r => r.business_goal == goal))
  else
    Except.error "UnknownCategoryError"

/-- C8: for a configured name (or "Uncategorized"),
`filter_by_category` returns exactly the records of that category as a
subsequence of the dataset in original order — every returned record has
the category, every matching record is returned, and the length is the
category count; for any other name it fails with `UnknownCategoryError`. -/
theorem filter_by_category_contract (rules : List CategoryRule)
    (ds : List CategorizedRecord) (name : String) :
    (name ∈ candidateCats rules →
      ∃ l, filter_by_category rules ds name = Except.ok l ∧
        l.Sublist ds ∧ (∀ r ∈ l, r.category = name) ∧
        (∀ r ∈ ds, r.category = name → r ∈ l) ∧
        l.length = countCat ds name) ∧
    (name ∉ candidateCats rules →
      filter_by_category rules ds name = Except.error "UnknownCategoryError") := by
  constructor
  · intro hmem
    refine ⟨ds.filter (fun r => r.category == name), ?_, ?_, ?_, ?_, rfl⟩
    · rw [filter_by_category, if_pos hmem]
    · exact List.filter_sublist ds
    · intro r hr
      have := (List.mem_filter.mp hr).2
      simpa using this
    · intro r hr hcat
      exact List.mem_filter.mpr ⟨hr, by simpa using hcat⟩
  · intro hnotmem
    rw [filter_by_category, if_neg hnotmem]

/-- C8 witness: filtering the demo dataset by "Billing" returns exactly its
single Billing record; filtering by the unknown name "Bogus" fails with
`UnknownCategoryError`. -/
theorem filter_by_category_contract_witness :
    ("Billing" ∈ candidateCats demoRules ∧
      ∃ l, filter_by_category demoRules demoDs "Billing" = Except.ok l ∧
        l.Sublist demoDs ∧ (∀ r ∈ l, r.category = "Billing") ∧
        (∀ r ∈ demoDs, r.category = "Billing" → r ∈ l) ∧
        l.length = countCat demoDs "Billing") ∧
    ("Bogus" ∉ candidateCats demoRules ∧
      filter_by_category demoRules demoDs "Bogus"
        = Except.error "UnknownCategoryError") :=
  ⟨⟨by decide,
      (filter_by_category_contract demoRules demoDs "Billing").1 (by decide)⟩,
    ⟨by decide,
      (filter_by_category_contract demoRules demoDs "Bogus").2 (by decide)⟩⟩

/-- Modelled from the spec: the missing `backend.py` `ComplaintBackend`
state — the most recently loaded-and-categorized snapshot, or nothing
before the first successful load. -/
structure ComplaintBackend where
  dataset : Option (List CategorizedRecord)
deriving DecidableEq

/-- Modelled from the spec: the shared precondition of every query — the
current snapshot, or `NotLoadedError` before any successful load. -/
def requireLoaded (b : ComplaintBackend) :
    Except String (List CategorizedRecord) :=
  match b.dataset with
  | none => Except.error "NotLoadedError"
  | some ds => Except.ok ds

/-- Modelled from the spec: `load` — atomically replace the snapshot with
the newly loaded-and-categorized sources. -/
def load (rules : List CategoryRule) (b : ComplaintBackend)
    (sources : List Source) : ComplaintBackend :=
  { b with dataset := some (categorizeAll rules (load_data sources)) }

/-- Modelled from the spec: `get_chart_data` against the current snapshot. -/
def get_chart_data (rules : List CategoryRule) (b : ComplaintBackend) :
    Except String (List (String × Nat)) :=
  (requireLoaded b).map (fun ds =>
    (priority_ranking rules ds).map (fun e => (e.category, e.count)))

/-- Modelled from the spec: `get_category_counts` against the snapshot. -/
def get_category_counts (rules : List CategoryRule) (b : ComplaintBackend) :
    Except String (List (String × Nat)) :=
  (requireLoaded b).map (fun ds =>
    (repEntries rules ds).map (fun e => (e.category, e.count)))

/-- Modelled from the spec: `get_priority_ranking` against the snapshot. -/
def get_priority_ranking (rules : List CategoryRule) (b : ComplaintBackend) :
    Except String (List RankEntry) :=
  (requireLoaded b).map (priority_ranking rules)

/-- Modelled from the spec: `get_summary_stats` against the snapshot. -/
def get_summary_stats (rules : List CategoryRule) (b : ComplaintBackend) :
    Except String SummaryStats :=
  (requireLoaded b).map (summary_stats rules)

/-- Modelled from the spec: `get_business_goal_mapping` — category to goal
for every configured category, still requiring a loaded snapshot. -/
def get_business_goal_mapping (rules : List CategoryRule)
    (b : ComplaintBackend) : Except String (List (String × String)) :=
  (requireLoaded b).map (fun _ =>
    rules.map (fun r => (r.category_name, r.business_goal)))

/-- Modelled from the spec: the facade-level `filter_by_category` query. -/
def backend_filter_by_category (rules : List CategoryRule)
    (b : ComplaintBackend) (name : String) :
    Except String (List CategorizedRecord) :=
  (requireLoaded b).bind (fun ds => filter_by_category rules ds name)

/-- Modelled from the spec: the facade-level `filter_by_business_goal`
query. -/
def backend_filter_by_business_goal (rules : List CategoryRule)
    (b : ComplaintBackend) (goal : String) :
    Except String (List CategorizedRecord) :=
  (requireLoaded b).bind (fun ds => filter_by_business_goal rules ds goal)

/-- C9: before any successful load every one of the seven queries fails
with `NotLoadedError`; after loading, each query runs against the most
recently loaded-and-categorized snapshot (a second load replaces the
first). -/
theorem facade_not_loaded_contract (rules : List CategoryRule)
    (b : ComplaintBackend) (hb : b.dataset = none) (name goal : String)
    (sources sources2 : List Source) :
    get_chart_data rules b = Except.error "NotLoadedError" ∧
    get_category_counts rules b = Except.error "NotLoadedError" ∧
    get_priority_ranking rules b = Except.error "NotLoadedError" ∧
    get_summary_stats rules b = Except.error "NotLoadedError" ∧
    get_business_goal_mapping rules b = Except.error "NotLoadedError" ∧
    backend_filter_by_category rules b name = Except.error "NotLoadedError" ∧
    backend_filter_by_business_goal rules b goal
      = Except.error "NotLoadedError" ∧
    get_priority_ranking rules (load rules b sources)
      = Except.ok (priority_ranking rules
          (categorizeAll rules (load_data sources))) ∧
    get_summary_stats rules (load rules (load rules b sources) sources2)
      = Except.ok (summary_stats rules
          (categorizeAll rules (load_data sources2))) := by
  have hreq : requireLoaded b = Except.error "NotLoadedError" := by
    rw [requireLoaded, hb]
  refine ⟨?_, ?_, ?_, ?_, ?_, ?_, ?_, rfl, rfl⟩ <;>
    simp [get_chart_data, get_category_counts, get_priority_ranking,
      get_summary_stats, get_business_goal_mapping, backend_filter_by_category,
      backend_filter_by_business_goal, hreq, Except.map, Except.bind]

/-- C9 witness: a fresh backend rejects every query with `NotLoadedError`;
after two loads the stats reflect the second load only. -/
theorem facade_not_loaded_contract_witness :
    (ComplaintBackend.mk none).dataset = none ∧
    get_priority_ranking demoRules (ComplaintBackend.mk none)
      = Except.error "NotLoadedError" ∧
    get_summary_stats demoRules
        (load demoRules
          (load demoRules (ComplaintBackend.mk none)
            [Source.mk ["Complaint Text"] [["my bill is wrong"]]])
          [Source.mk ["Complaint Text"] [["no signal today"], ["unrelated"]]])
      = Except.ok (summary_stats demoRules
          (categorizeAll demoRules (load_data
            [Source.mk ["Complaint Text"] [["no signal today"], ["unrelated"]]]))) :=
  ⟨rfl,
    (facade_not_loaded_contract demoRules (ComplaintBackend.mk none) rfl
      "Billing" "Improve Billing"
      [Source.mk ["Complaint Text"] [["my bill is wrong"]]]
      [Source.mk ["Complaint Text"] [["no signal today"], ["unrelated"]]]).2.2.1,
    (facade_not_loaded_contract demoRules (ComplaintBackend.mk none) rfl
      "Billing" "Improve Billing"
      [Source.mk ["Complaint Text"] [["my bill is wrong"]]]
      [Source.mk ["Complaint Text"] [["no signal today"], ["unrelated"]]]).2.2.2.2.2.2.2.2⟩

/-- The four hard-coded animation targets of the frontend `Analytics`
component (2500000, 12500, 45000, 99.9); they are constants, taking no
input from any loaded complaint dataset. -/
def statsTargets : List ℚ :=
  [2500000, 12500, 45000, 999 / 10]

/-- One interval tick of the `Analytics` counter: add the increment, then
clamp at the target (the `current >= stat.target` branch). -/
def animTick (target inc current : ℚ) : ℚ :=
  if target ≤ current + inc then target else current + inc

/-- The running counter after `k` ticks, starting from 0 with increment
`target / steps` where `steps = 60`. -/
def animCounter (target : ℚ) : Nat → ℚ
  | 0 => 0
  | k + 1 => animTick target (target / 60) (animCounter target k)

/-- The displayed statistic value: `Math.floor` of the running counter. -/
def displayedValue (target : ℚ) (k : Nat) : ℤ :=
  ⌊animCounter target k⌋

/-- A non-negative target bounds its counter at every tick. -/
theorem animCounter_le_target (target : ℚ) (h0 : 0 ≤ target) :
    ∀ k : Nat, animCounter target k ≤ target := by
  intro k
  induction k with
  | zero => exact h0
  | succ n ih =>
    show animTick target (target / 60) (animCounter target n) ≤ target
    rw [animTick]
    by_cases h : target ≤ animCounter target n + target / 60
    · rw [if_pos h]
    · rw [if_neg h]
      linarith [lt_of_not_le h]

/-- The counter is either already clamped or exactly `k` increments. -/
theorem animCounter_cases (target : ℚ) (h0 : 0 ≤ target) :
    ∀ k : Nat, animCounter target k = target ∨
      animCounter target k = (k : ℚ) * (target / 60) := by
  intro k
  induction k with
  | zero => right; simp [animCounter]
  | succ n ih =>
    rw [show animCounter target (n + 1)
        = animTick target (target / 60) (animCounter target n) from rfl]
    rcases ih with h | h
    · left
      rw [animTick, h, if_pos (by linarith [div_nonneg h0 (by norm_num : (0:ℚ) ≤ 60)])]
    · rw [animTick, h]
      by_cases hc : target ≤ (n : ℚ) * (target / 60) + target / 60
      · left; rw [if_pos hc]
      · right
        rw [if_neg hc]
        push_cast
        ring

/-- Once clamped, the counter stays at the target. -/
theorem animCounter_stable (target : ℚ) (h0 : 0 ≤ target) (k : Nat)
    (hk : animCounter target k = target) :
    animCounter target (k + 1) = target := by
  show animTick target (target / 60) (animCounter target k) = target
  rw [animTick, hk,
    if_pos (by linarith [div_nonneg h0 (by norm_num : (0:ℚ) ≤ 60)])]

/-- From tick 60 on, the counter sits exactly at the target. -/
theorem animCounter_sixty (target : ℚ) (h0 : 0 ≤ target) :
    ∀ k : Nat, 60 ≤ k → animCounter target k = target := by
  intro k hk
  induction k with
  | zero => omega
  | succ n ih =>
    by_cases h60 : 60 ≤ n
    · exact animCounter_stable target h0 n (ih h60)
    · have hn : n = 59 := by omega
      subst hn
      rcases animCounter_cases target h0 60 with h | h
      · exact h
      · rw [h]; push_cast; ring

/-- C10: the `Analytics` statistics animate toward the four hard-coded
targets independently of any complaint dataset; at every tick the
displayed value is the floor of the counter clamped at the target, so it
never exceeds the target, and from tick 60 on it equals the floor of the
target — in particular the Uptime statistic (target 99.9) stabilizes at
99, not 99.9. -/
theorem analytics_animation_contract :
    (∀ t ∈ statsTargets, ∀ k : Nat, (displayedValue t k : ℚ) ≤ t) ∧
    (∀ t ∈ statsTargets, ∀ k : Nat, 60 ≤ k → displayedValue t k = ⌊t⌋) ∧
    ((999 / 10 : ℚ) ∈ statsTargets ∧ displayedValue (999 / 10) 60 = 99 ∧
      ⌊(999 / 10 : ℚ)⌋ = 99) := by
  have hpos : ∀ t ∈ statsTargets, (0 : ℚ) ≤ t := by
    intro t ht
    fin_cases ht <;> norm_num
  have hmem : (999 / 10 : ℚ) ∈ statsTargets := by
    simp [statsTargets]
  have hfloor : (⌊(999 / 10 : ℚ)⌋ : ℤ) = 99 := by
    rw [show (999 / 10 : ℚ) = 99 + 9 / 10 by norm_num]
    rw [Int.floor_eq_iff] <;> norm_num
  refine ⟨?_, ?_, hmem, ?_, hfloor⟩
  · intro t ht k
    exact le_trans (Int.floor_le _) (animCounter_le_target t (hpos t ht) k)
  · intro t ht k hk
    rw [displayedValue, animCounter_sixty t (hpos t ht) k hk]
  · rw [displayedValue, animCounter_sixty _ (hpos _ hmem) 60 (le_refl 60), hfloor]

/-- C10 witness: the Uptime target 99.9 is one of the hard-coded targets
and its displayed value at tick 60 (and beyond) is the floor of 99.9. -/
theorem analytics_animation_contract_witness :
    ((999 / 10 : ℚ) ∈ statsTargets ∧ (60 : Nat) ≤ 60) ∧
    displayedValue (999 / 10) 60 = ⌊(999 / 10 : ℚ)⌋ ∧
    displayedValue (999 / 10) 60 = 99 :=
  ⟨⟨List.mem_cons_of_mem _ (List.mem_cons_of_mem _ (List.mem_cons_of_mem _
      (List.mem_cons_self _ _))), le_refl 60⟩,
    analytics_animation_contract.2.1 (999 / 10)
      (List.mem_cons_of_mem _ (List.mem_cons_of_mem _ (List.mem_cons_of_mem _
        (List.mem_cons_self _ _)))) 60 (le_refl 60),
    analytics_animation_contract.2.2.2.1⟩
